import Mathlib

/-!
Verification development for the grabbit business-scraper.

Shallow embedding of the field validator (`BusinessDataValidator`), the
duplicate detector (`DuplicateDetector`), the cache (`CacheManager`), the
enhanced retry fetcher (`fetchWithEnhancedRetry`) and the custom-scrape
route handler, together with theorems about their specified properties.

Modelling conventions:
* JavaScript strings are lists of characters (`Str`); character classes
  (`\w`, `\s`, `toLowerCase`) are modelled on the ASCII range that the
  application's data uses.
* JavaScript numbers are exact rationals (scores) or integers (times),
  far from any floating-point boundary used by the code.
* The WHATWG `URL` builtin is modelled (`UrlModel`) for the simple
  absolute `http(s)://host/path` URLs this application constructs.
* In-place mutation (for example `Array.prototype.sort` inside
  `CacheManager.hashArray`) is made explicit: the function also returns
  the value the caller's array holds after the call.
-/

/-- JavaScript strings, modelled as lists of characters. -/
abbrev Str := List Char

namespace JsStr

/-- The JS regex class `\w` (`[A-Za-z0-9_]`). -/
def isWordChar (c : Char) : Bool := c.isAlphanum || c = '_'

/-- The JS regex class `\s`, restricted to the ASCII whitespace characters. -/
def isSpaceChar (c : Char) : Bool :=
  c = ' ' || c = '\t' || c = '\n' || c = '\r' || c.val = 11 || c.val = 12

/-- `String.prototype.toLowerCase` (ASCII). -/
def lower (s : Str) : Str := s.map Char.toLower

/-- `String.prototype.trim`. -/
def trim (s : Str) : Str :=
  ((s.dropWhile isSpaceChar).reverse.dropWhile isSpaceChar).reverse

/-- `big.includes(small)`: substring test. `includes("")` is `true`, as in JS. -/
def containsStr (big small : Str) : Bool :=
  big.tails.any (fun t => small.isPrefixOf t)

/-- `s.startsWith(p)`. -/
def startsWith (s p : Str) : Bool := p.isPrefixOf s

/-- Accumulator for `runs`: splits off maximal runs of characters that agree
on the classifier `cls`. -/
def runsAux (cls : Char → Bool) (b : Bool) (cur : List Char) : List Char → List (List Char)
  | [] => [cur.reverse]
  | c :: cs =>
    if cls c = b then runsAux cls b (c :: cur) cs
    else cur.reverse :: runsAux cls (cls c) [c] cs

/-- Split a string into maximal runs of characters with equal `cls` value. -/
def runs (cls : Char → Bool) : List Char → List (List Char)
  | [] => []
  | c :: cs => runsAux cls (cls c) [c] cs

/-- Global regex replace of `\b(w1|...|wn)\b` (all alternatives consisting of
word characters) by the empty string: a match carrying a word boundary on both
sides is exactly a maximal `\w`-run equal to one of the alternatives. -/
def removeWordTokens (toks : List Str) (s : Str) : Str :=
  ((runs isWordChar s).map (fun r =>
    match r with
    | c :: _ => if isWordChar c && toks.contains r then [] else r
    | [] => r)).flatten

/-- Global regex replace of `\s+` by the single character `repl`. -/
def collapseRuns (repl : Char) (s : Str) : Str :=
  ((runs isSpaceChar s).map (fun r =>
    match r with
    | c :: _ => if isSpaceChar c then [repl] else r
    | [] => r)).flatten

/-- The regex test `^\d+\.\d+\.\d+\.\d+$` (bare IPv4 literal). -/
def isIpLike (d : Str) : Bool :=
  let gs := d.splitOn '.'
  gs.length = 4 && gs.all (fun g => !g.isEmpty && g.all Char.isDigit)

/-- Strip the optional regex prefix `^(https?:\/\/)?(www\.)?`. -/
def stripUrlPre (s : Str) : Str :=
  let s1 :=
    if startsWith s "https://".data then s.drop 8
    else if startsWith s "http://".data then s.drop 7
    else s
  if startsWith s1 "www.".data then s1.drop 4 else s1

end JsStr

namespace UrlModel

open JsStr

/-- Parsed pieces of an absolute http(s) URL. -/
structure UrlParts where
  secure : Bool
  host : Str
  tail : Str
deriving DecidableEq, Repr

/-- Model of the WHATWG `URL` constructor, restricted to the absolute
`http://` / `https://` URLs this application constructs: the host runs up
to the first `/`, `?` or `#`; a URL without an explicit `http(s)://` scheme,
or with an empty host or whitespace inside the host, fails to parse
(the constructor throws). -/
def parse (u : Str) : Option UrlParts :=
  let rest? : Option (Bool × Str) :=
    if startsWith u "https://".data then some (true, u.drop 8)
    else if startsWith u "http://".data then some (false, u.drop 7)
    else none
  match rest? with
  | none => none
  | some (sec, r) =>
    let host := r.takeWhile (fun c => !(c = '/' || c = '?' || c = '#'))
    let tail := r.dropWhile (fun c => !(c = '/' || c = '?' || c = '#'))
    if host.isEmpty || host.any isSpaceChar then none
    else some ⟨sec, host, tail⟩

/-- Model of `URL.prototype.href`: the pathname defaults to `/` when the
input has no path. -/
def href (p : UrlParts) : Str :=
  (if p.secure then "https://".data else "http://".data) ++ p.host ++
    (if p.tail.head? = some '/' then p.tail else '/' :: p.tail)

end UrlModel

/-- The canonical business record (`BusinessResult` in `types.ts`); all
fields are strings, the empty string meaning absent. -/
structure BusinessResult where
  name : Str
  phone : Str
  email : Str
  website : Str
  address : Str
  category : Str
deriving DecidableEq, Repr

namespace BusinessDataValidator

open JsStr

/-- `phone.replace(/\D/g, "")`: keep only the digits. -/
def digitsOf (s : Str) : Str := s.filter Char.isDigit

/-- The regex test `/(\d)\1{6,}/`: a run of seven or more equal digits. -/
def hasSevenRun : Str → Bool
  | [] => false
  | c :: cs =>
    (c.isDigit && ((cs.take 6).length = 6 && (cs.take 6).all (fun x => x = c)))
      || hasSevenRun cs

/-- The fixed list of obviously fake digit strings. -/
def fakeNumbers : List Str :=
  ["1234567890".data, "0000000000".data, "1111111111".data]

/-- Format a 10-digit string as `(AAA) EEE-LLLL`
(`digits.slice(0,3)`, `slice(3,6)`, `slice(6)`). -/
def fmt10 (d : Str) : Str :=
  '(' :: d.take 3 ++ ')' :: ' ' :: ((d.drop 3).take 3 ++ '-' :: d.drop 6)

/-- Format an 11-digit string led by `1` as `+1 (AAA) EEE-LLLL`
(`digits.slice(1,4)`, `slice(4,7)`, `slice(7)`). -/
def fmt11 (d : Str) : Str :=
  '+' :: '1' :: ' ' :: '(' :: ((d.drop 1).take 3) ++ ')' :: ' ' ::
    ((d.drop 4).take 3 ++ '-' :: d.drop 7)

/-- `BusinessDataValidator.validatePhone`: `none` models a `null` return. -/
def validatePhone (phone : Str) : Option Str :=
  if phone = [] then none
  else
    let digits := digitsOf phone
    if digits.length < 7 ∨ 15 < digits.length then none
    else if hasSevenRun digits then none
    else if fakeNumbers.contains digits then none
    else if digits.length = 10 then
      if digits.head? = some '0' ∨ digits.head? = some '1' then none
      else some (fmt10 digits)
    else if digits.length = 11 ∧ digits.head? = some '1' then
      if (digits.drop 1).head? = some '0' ∨ (digits.drop 1).head? = some '1' then none
      else some (fmt11 digits)
    else if 7 ≤ digits.length ∧ digits.length ≤ 15 then
      some ('+' :: digits)
    else none

/-- The regex test `^[^\s@]+@[^\s@]+\.[^\s@]+$`: exactly one `@`, a nonempty
local part, and a dot in the domain that is neither first nor last. -/
def emailShapeOk (s : Str) : Bool :=
  match s.splitOn '@' with
  | [l, d] =>
    !l.isEmpty && l.all (fun c => !isSpaceChar c) && d.all (fun c => !isSpaceChar c)
      && ((d.drop 1).dropLast.contains '.')
  | _ => false

/-- The fixed denylist of disposable email domains. -/
def disposableDomains : List Str :=
  ["tempmail.com", "10minutemail.com", "guerrillamail.com", "mailinator.com",
   "throwaway.email", "temp-mail.org", "getnada.com", "maildrop.cc",
   "yopmail.com", "sharklasers.com", "guerrillamailblock.com"].map String.data

/-- `BusinessDataValidator.isDisposableEmail`. -/
def isDisposableEmail (email : Str) : Bool :=
  match (email.splitOn '@').get? 1 with
  | some d => disposableDomains.contains (lower d)
  | none => false

/-- The case-insensitive regex test `^(test|example|sample|demo|noreply|no-reply)@`. -/
def fakeLocalPart (email : Str) : Bool :=
  ["test@", "example@", "sample@", "demo@", "noreply@", "no-reply@"].any
    (fun w => startsWith (lower email) w.data)

/-- `BusinessDataValidator.validateEmail`. -/
def validateEmail (email : Str) : Bool :=
  if email = [] then false
  else if !emailShapeOk email then false
  else if isDisposableEmail email then false
  else if fakeLocalPart email then false
  else if 254 < email.length then false
  else true

/-- `BusinessDataValidator.validateWebsite`: `none` models a `null` return. -/
def validateWebsite (url : Str) : Option Str :=
  if url = [] then none
  else
    let cleanUrl := stripUrlPre (lower (trim url))
    let domainOnly := (cleanUrl.splitOn '/').headD []
    if !domainOnly.contains '.' ∨ domainOnly.getLast? = some '.' then none
    else if containsStr domainOnly "localhost".data
        ∨ containsStr domainOnly "127.0.0.1".data
        ∨ isIpLike domainOnly then none
    else
      match UrlModel.parse ("https://".data ++ cleanUrl) with
      | some parts => some (UrlModel.href parts)
      | none => none

/-- `BusinessDataValidator.validateBusinessName`. -/
def validateBusinessName (name : Str) : Option Str :=
  if name = [] then none
  else
    let cleaned := trim name
    if cleaned.length < 2 then none
    else if 200 < cleaned.length then some (cleaned.take 200)
    else some (collapseRuns ' ' cleaned)

/-- `BusinessDataValidator.validateAddress`. -/
def validateAddress (address : Str) : Option Str :=
  if address = [] then none
  else
    let cleaned := trim address
    if cleaned.length < 5 then none
    else if 500 < cleaned.length then some (cleaned.take 500)
    else some (collapseRuns ' ' cleaned)

/-- JS `x || fallback` applied to a validator result: `null` and the empty
string both fall through to the fallback. -/
def jsOrStr (x : Option Str) (fallback : Str) : Str :=
  match x with
  | some s => if s = [] then fallback else s
  | none => fallback

/-- `BusinessDataValidator.validateBusinessResult`. -/
def validateBusinessResult (b : BusinessResult) : BusinessResult where
  name := jsOrStr (validateBusinessName b.name) b.name
  phone := jsOrStr (validatePhone b.phone) []
  email := if b.email ≠ [] ∧ validateEmail b.email then b.email else []
  website := jsOrStr (validateWebsite b.website) []
  address := jsOrStr (validateAddress b.address) []
  category := jsOrStr (some (trim b.category)) []

end BusinessDataValidator

namespace DuplicateDetector

open JsStr BusinessDataValidator

/-- The business suffix alternatives of
`\b(inc|llc|ltd|corp|corporation|company|co|llp|lp)\b`. -/
def suffixToks : List Str :=
  ["inc", "llc", "ltd", "corp", "corporation", "company", "co", "llp", "lp"].map
    String.data

/-- The street-type alternatives of
`\b(street|st|avenue|ave|road|rd|boulevard|blvd|drive|dr|lane|ln|way|place|pl)\b`. -/
def streetToks : List Str :=
  ["street", "st", "avenue", "ave", "road", "rd", "boulevard", "blvd", "drive",
   "dr", "lane", "ln", "way", "place", "pl"].map String.data

/-- `DuplicateDetector.normalizeBusinessName`: lower-case, strip punctuation
(`[^\w\s]`), remove legal suffixes, collapse whitespace, trim. -/
def normalizeBusinessName (name : Str) : Str :=
  if name = [] then []
  else
    trim (collapseRuns ' ' (removeWordTokens suffixToks
      ((lower name).filter (fun c => isWordChar c || isSpaceChar c))))

/-- `DuplicateDetector.normalizeAddress`: lower-case, remove street types,
strip punctuation, collapse whitespace, trim. -/
def normalizeAddress (address : Str) : Str :=
  if address = [] then []
  else
    trim (collapseRuns ' '
      ((removeWordTokens streetToks (lower address)).filter
        (fun c => isWordChar c || isSpaceChar c)))

/-- Recursive formulation of the dynamic program in
`DuplicateDetector.levenshteinDistance` (the source fills the standard
matrix for the same recurrence). -/
def levenshtein (s t : Str) : ℕ :=
  match s, t with
  | [], t => t.length
  | s, [] => s.length
  | a :: s', b :: t' =>
    if a = b then levenshtein s' t'
    else 1 + min (levenshtein s' t')
      (min (levenshtein (a :: s') t') (levenshtein s' (b :: t')))
termination_by s.length + t.length
decreasing_by all_goals simp_arith

/-- `DuplicateDetector.stringSimilarity`. -/
def stringSimilarity (str1 str2 : Str) : ℚ :=
  if str1 = [] ∨ str2 = [] then 0
  else if str1 = str2 then 1
  else
    let longer := if str2.length < str1.length then str1 else str2
    let shorter := if str2.length < str1.length then str2 else str1
    if longer.length = 0 then 1
    else ((longer.length : ℚ) - levenshtein longer shorter) / longer.length

/-- `DuplicateDetector.phoneSimilarity`. -/
def phoneSimilarity (phone1 phone2 : Str) : ℚ :=
  if phone1 = [] ∨ phone2 = [] then 0
  else
    let digits1 := digitsOf phone1
    let digits2 := digitsOf phone2
    if digits1 = digits2 then 1
    else if containsStr digits1 digits2 || containsStr digits2 digits1 then 4/5
    else 0

/-- `DuplicateDetector.extractDomain`: the hostname of the URL, with an
`https://` scheme prepended when the string does not start with `http`. -/
def extractDomain (url : Str) : Option Str :=
  if url = [] then none
  else
    match UrlModel.parse
        (if startsWith url "http".data then url else "https://".data ++ url) with
    | some parts => some (lower parts.host)
    | none => none

/-- `domain.replace(/^www\./, "")`. -/
def stripWwwDot (d : Str) : Str :=
  if startsWith d "www.".data then d.drop 4 else d

/-- `DuplicateDetector.websiteSimilarity`. -/
def websiteSimilarity (website1 website2 : Str) : ℚ :=
  if website1 = [] ∨ website2 = [] then 0
  else
    match extractDomain website1, extractDomain website2 with
    | some domain1, some domain2 =>
      if domain1 = domain2 then 1
      else if stripWwwDot domain1 = stripWwwDot domain2 then 1
      else 0
    | _, _ => 0

/-- `DuplicateDetector.emailSimilarity`; `split("@")[1]` can be undefined or
the empty (falsy) string, both giving score 0. -/
def emailSimilarity (email1 email2 : Str) : ℚ :=
  if email1 = [] ∨ email2 = [] then 0
  else if email1 = email2 then 1
  else
    match (email1.splitOn '@').get? 1, (email2.splitOn '@').get? 1 with
    | some domain1, some domain2 =>
      if domain1 ≠ [] ∧ domain2 ≠ [] ∧ domain1 = domain2 then 7/10 else 0
    | _, _ => 0

/-- `DuplicateDetector.calculateSimilarity`: weighted sum with weights
name 0.4, phone 0.2, website 0.15, address 0.15, email 0.1. -/
def calculateSimilarity (business1 business2 : BusinessResult) : ℚ :=
  let nameScore := stringSimilarity
    (normalizeBusinessName business1.name) (normalizeBusinessName business2.name)
  let phoneScore := phoneSimilarity business1.phone business2.phone
  let websiteScore := websiteSimilarity business1.website business2.website
  let addressScore := stringSimilarity
    (normalizeAddress business1.address) (normalizeAddress business2.address)
  let emailScore := emailSimilarity business1.email business2.email
  nameScore * (2/5) + phoneScore * (1/5) + websiteScore * (3/20)
    + addressScore * (3/20) + emailScore * (1/10)

/-- `DuplicateDetector.createBusinessSignature`:
`normalizedName|digitsOnlyPhone|domain`, lower-cased. -/
def createBusinessSignature (business : BusinessResult) : Str :=
  lower (normalizeBusinessName business.name ++ '|' :: digitsOf business.phone
    ++ '|' :: ((extractDomain business.website).getD []))

/-- Loop of `DuplicateDetector.removeDuplicates`: `unique` accumulates the
accepted records, `seen` their signatures. -/
def removeDupGo : List BusinessResult → List BusinessResult → List Str →
    List BusinessResult
  | [], unique, _ => unique
  | business :: rest, unique, seen =>
    if createBusinessSignature business ∈ seen then removeDupGo rest unique seen
    else if unique.any
        (fun existing => decide ((17/20 : ℚ) < calculateSimilarity business existing)) then
      removeDupGo rest unique seen
    else
      removeDupGo rest (unique ++ [business])
        (seen ++ [createBusinessSignature business])

/-- `DuplicateDetector.removeDuplicates`: order-preserving removal of
signature-exact and fuzzy (similarity > 0.85) duplicates. -/
def removeDuplicates (businesses : List BusinessResult) : List BusinessResult :=
  removeDupGo businesses [] []

end DuplicateDetector

/-- `CacheEntry<T>`: value, creation time, time-to-live (milliseconds). -/
structure CacheEntry (α : Type) where
  data : α
  timestamp : ℤ
  ttl : ℤ
deriving DecidableEq, Repr

/-- The state of the process-wide `Map<string, CacheEntry>`, in insertion
order.  The heterogeneous `any`-valued map is modelled at the value type the
claims use. -/
abbrev CacheState (α : Type) := List (Str × CacheEntry α)

namespace CacheManager

open JsStr

def MAX_CACHE_SIZE : ℕ := 1000

def DEFAULT_TTL : ℤ := 3600000

/-- `Map.prototype.get`. -/
def mapLookup (c : CacheState α) (k : Str) : Option (CacheEntry α) :=
  (c.find? (fun p => p.1 = k)).map Prod.snd

/-- `Map.prototype.set`: replace in place when the key exists, else append. -/
def mapSet (c : CacheState α) (k : Str) (e : CacheEntry α) : CacheState α :=
  if c.any (fun p => p.1 = k) then
    c.map (fun p => if p.1 = k then (k, e) else p)
  else c ++ [(k, e)]

/-- `Map.prototype.delete`. -/
def mapDelete (c : CacheState α) (k : Str) : CacheState α :=
  c.filter (fun p => !(p.1 = k))

/-- The expiry test `now - entry.timestamp > entry.ttl`. -/
def isExpired (now : ℤ) (e : CacheEntry α) : Bool :=
  decide (e.ttl < now - e.timestamp)

/-- `CacheManager.cleanup`: collect the keys of the expired entries, then
delete each of them. -/
def cleanup (c : CacheState α) (now : ℤ) : CacheState α :=
  ((c.filter (fun p => isExpired now p.2)).map Prod.fst).foldl
    (fun m k => mapDelete m k) c

/-- `CacheManager.set`: run a cleanup pass when the map has reached the
size cap, then write the entry. -/
def set (c : CacheState α) (k : Str) (v : α) (ttl now : ℤ) : CacheState α :=
  mapSet (if MAX_CACHE_SIZE ≤ c.length then cleanup c now else c) k
    ⟨v, now, ttl⟩

/-- `CacheManager.get`: miss on an absent key; delete and miss on an expired
entry; otherwise return the stored data.  The second component is the map
after the call. -/
def get (c : CacheState α) (k : Str) (now : ℤ) : Option α × CacheState α :=
  match mapLookup c k with
  | none => (none, c)
  | some e =>
    if isExpired now e then (none, mapDelete c k)
    else (some e.data, c)

/-- `CacheManager.generateKey`:
`prefix:params.join(":").toLowerCase().replace(/\s+/g, "_")`. -/
def generateKey (pre : Str) (params : List Str) : Str :=
  pre ++ ':' :: collapseRuns '_' (lower (List.intercalate ":".data params))

/-- `CacheManager.hashArray`: `arr.sort().join("|").substring(0, 50)`.
`Array.prototype.sort` sorts the caller's array in place; the second
component is the value the caller's array holds after the call. -/
def hashArray (arr : List Str) : Str × List Str :=
  let sorted := List.insertionSort (· ≤ ·) arr
  ((List.intercalate "|".data sorted).take 50, sorted)

/-- `CacheManager.cacheCustomScrapeResults` (TTL 30 minutes).  The second
component is the caller's `websites` array after the call (sorted in place
by `hashArray`). -/
def cacheCustomScrapeResults (c : CacheState (List BusinessResult))
    (websites : List Str) (businessType location : Str)
    (results : List BusinessResult) (now : ℤ) :
    CacheState (List BusinessResult) × List Str :=
  let h := hashArray websites
  (set c (generateKey "custom_scrape".data [h.1, businessType, location])
    results 1800000 now, h.2)

/-- `CacheManager.getCachedCustomScrapeResults`.  The second component is
the caller's `websites` array after the call. -/
def getCachedCustomScrapeResults (c : CacheState (List BusinessResult))
    (websites : List Str) (businessType location : Str) (now : ℤ) :
    (Option (List BusinessResult) × CacheState (List BusinessResult)) × List Str :=
  let h := hashArray websites
  (get c (generateKey "custom_scrape".data [h.1, businessType, location]) now,
    h.2)

end CacheManager

namespace EnhancedRetry

open JsStr

/-- Outcome of one network attempt: an HTTP response (status code and
status text) or an abort-timer timeout (`AbortError`). -/
inductive AttemptOutcome
  | status (code : ℕ) (statusText : Str)
  | timeout
deriving DecidableEq, Repr

/-- Result of `fetchWithEnhancedRetry`: the status code of the returned
`ok` response, or the message of the thrown `Error`. -/
inductive FetchResult
  | success (code : ℕ)
  | failure (msg : Str)
deriving DecidableEq, Repr

/-- The message of the `Error` thrown for a non-ok HTTP status. -/
def errMsgFor (code : ℕ) (statusText : Str) : Str :=
  if code = 403 ∨ code = 429 then
    "Access denied (".data ++ (Nat.repr code).data
      ++ "): Website may be blocking automated requests".data
  else if code = 404 then
    "Page not found (404): Website may not exist".data
  else if 500 ≤ code then
    "Server error (".data ++ (Nat.repr code).data
      ++ "): Website may be temporarily unavailable".data
  else
    "HTTP ".data ++ (Nat.repr code).data ++ ": ".data ++ statusText

/-- The message thrown when the abort timer fires
(`timeoutMs / 1000` is exact for the 30000 ms the callers pass). -/
def timeoutMsg (timeoutMs : ℕ) : Str :=
  "Request timeout after ".data ++ (Nat.repr (timeoutMs / 1000)).data
    ++ " seconds".data

/-- The retry loop of `fetchWithEnhancedRetry`: `remaining` counts the loop
iterations still allowed (the loop condition `attempt < maxRetries` holds
exactly while `remaining > 0`); also returns the number of attempts
consumed.  A 2xx response returns; a timeout or a message containing `404`
or `Access denied` is thrown immediately; any other error is retried.  The
backoff delays do not affect the result and are not modelled. -/
def fetchAux (resp : ℕ → AttemptOutcome) (timeoutMs : ℕ) :
    ℕ → ℕ → Option Str → FetchResult × ℕ
  | 0, attempt, lastError =>
    (.failure (lastError.getD "Failed to fetch after retries".data), attempt)
  | remaining + 1, attempt, _lastError =>
    match resp attempt with
    | .timeout => (.failure (timeoutMsg timeoutMs), attempt + 1)
    | .status code statusText =>
      if 200 ≤ code ∧ code ≤ 299 then (.success code, attempt + 1)
      else
        let msg := errMsgFor code statusText
        if containsStr msg "404".data || containsStr msg "Access denied".data then
          (.failure msg, attempt + 1)
        else fetchAux resp timeoutMs remaining (attempt + 1) (some msg)

/-- `fetchWithEnhancedRetry(url, maxRetries, timeoutMs)` over a sequence of
attempt outcomes. -/
def fetchWithEnhancedRetry (resp : ℕ → AttemptOutcome)
    (maxRetries timeoutMs : ℕ) : FetchResult × ℕ :=
  fetchAux resp timeoutMs maxRetries 0 none

end EnhancedRetry

namespace ScrapeCustomRoute

open JsStr

/-- Error categories of the `DetailedError` interface. -/
inductive ErrCat
  | validation
  | network
  | content
  | timeout
  | unknown
deriving DecidableEq, Repr

/-- A `DetailedError`: failed URL, message, and category. -/
structure DetailedErr where
  url : Str
  msg : Str
  category : ErrCat
deriving DecidableEq, Repr

/-- The `stats` object of the route response; `errorsByCategory` is the
reduce-built record, keys in first-occurrence order. -/
structure ScrapeStats where
  total : ℕ
  successful : ℕ
  failed : ℕ
  errorsByCategory : List (ErrCat × ℕ)
deriving DecidableEq, Repr

/-- A 200 response body of the route (`detailedErrors` is absent on the
cache-hit branch). -/
structure OkResp where
  businesses : List BusinessResult
  errors : List Str
  stats : ScrapeStats
  detailedErrors : Option (List DetailedErr)
deriving DecidableEq, Repr

/-- Result of the POST handler: an error response or a 200 body. -/
inductive PostResult
  | bad (msg : Str)
  | ok (r : OkResp)
deriving DecidableEq, Repr

/-- Outcome of `extractBusinessInfoFromWebsite` for one cleaned URL: a
record, a `null` return, or a thrown error with its message. -/
inductive ExtractOutcome
  | success (b : BusinessResult)
  | noInfo
  | failure (msg : Str)
deriving DecidableEq, Repr

/-- `acc[error.category] = (acc[error.category] || 0) + 1` on the
reduce accumulator. -/
def bumpCategory (acc : List (ErrCat × ℕ)) (cat : ErrCat) : List (ErrCat × ℕ) :=
  if acc.any (fun p => p.1 = cat) then
    acc.map (fun p => if p.1 = cat then (p.1, p.2 + 1) else p)
  else acc ++ [(cat, 1)]

/-- `detailedErrors.reduce(...)` building `errorsByCategory`. -/
def catCounts (de : List DetailedErr) : List (ErrCat × ℕ) :=
  de.foldl (fun acc e => bumpCategory acc e.category) []

/-- The route's inline URL cleaning and validation: lower-case, strip
`^(https?:\/\/)?(www\.)?`, prepend `https://`, parse, then reject hosts
without a dot and local/IP hosts.  `error` carries the thrown message
(`Invalid URL` models the message of the `URL` constructor's TypeError). -/
def cleanRouteUrl (trimmed : Str) : Except Str Str :=
  let cleanUrl := "https://".data ++ stripUrlPre (lower trimmed)
  match UrlModel.parse cleanUrl with
  | none => .error "Invalid URL".data
  | some parts =>
    if !parts.host.contains '.' then .error "Invalid domain format".data
    else if containsStr parts.host "localhost".data
        ∨ containsStr parts.host "127.0.0.1".data
        ∨ isIpLike parts.host then .error "Local URLs not supported".data
    else .ok cleanUrl

/-- The validation loop over the input URLs: empty-after-trim entries are
skipped; failures become `validation` errors; successes carry
`(original, cleaned)`. -/
def partitionUrls (websites : List Str) : List (Str × Str) × List DetailedErr :=
  websites.foldl
    (fun acc originalUrl =>
      let trimmed := trim originalUrl
      if trimmed = [] then acc
      else
        match cleanRouteUrl trimmed with
        | .ok cleaned => (acc.1 ++ [(originalUrl, cleaned)], acc.2)
        | .error m =>
          (acc.1, acc.2 ++ [⟨originalUrl, "Invalid URL: ".data ++ m, .validation⟩]))
    ([], [])

/-- The error categorization of the per-URL catch block: substring matches
against the error message, with user-facing replacement messages. -/
def categorize (original msg : Str) : DetailedErr :=
  if containsStr msg "timeout".data || containsStr msg "Request timeout".data then
    ⟨original, "Website took too long to respond (timeout after 30 seconds)".data,
      .timeout⟩
  else if containsStr msg "Access denied".data || containsStr msg "403".data
      || containsStr msg "429".data then
    ⟨original, "Website is blocking automated requests".data, .network⟩
  else if containsStr msg "404".data || containsStr msg "not found".data then
    ⟨original, "Website not found (404 error)".data, .network⟩
  else if containsStr msg "Not a business website".data then
    ⟨original, "Does not appear to be a business website".data, .content⟩
  else if containsStr msg "Invalid URL".data then
    ⟨original, msg, .validation⟩
  else if containsStr msg "Server error".data || containsStr msg "5".data then
    ⟨original, "Website server error - may be temporarily unavailable".data,
      .network⟩
  else if containsStr msg "quota".data || containsStr msg "exceeded".data then
    ⟨original,
      "AI service temporarily unavailable - using traditional extraction".data,
      .network⟩
  else ⟨original, msg, .unknown⟩

/-- The extraction loop over the limited URL list.  The bounded-concurrency
batches are modelled in submission order (the counts and sets the claims
speak about do not depend on completion order); the accumulator carries
`(businesses, detailedErrors)`. -/
def runExtraction (extract : Str → ExtractOutcome)
    (limited : List (Str × Str)) (validationErrors : List DetailedErr) :
    List BusinessResult × List DetailedErr :=
  limited.foldl
    (fun acc ow =>
      match extract ow.2 with
      | .success b => (acc.1 ++ [b], acc.2)
      | .noInfo =>
        (acc.1,
          acc.2 ++ [⟨ow.1, "No business information could be extracted".data,
            .content⟩])
      | .failure m => (acc.1, acc.2 ++ [categorize ow.1 m]))
    ([], validationErrors)

/-- The POST handler of `app/api/scrape-custom-websites` over a typed body:
empty-list rejection, batch-cache check, validation, capped extraction,
dedup, cache write, and stats.  The request-level 5-minute timeout race and
the malformed-body branch are outside the typed model.  The second
component is the cache state after the call. -/
def POST (cache : CacheState (List BusinessResult)) (websites : List Str)
    (businessType location : Str) (extract : Str → ExtractOutcome) (now : ℤ) :
    PostResult × CacheState (List BusinessResult) :=
  if websites = [] then (.bad "No websites provided".data, cache)
  else
    let got := CacheManager.getCachedCustomScrapeResults cache websites
      businessType location now
    match got.1.1 with
    | some cached =>
      (.ok ⟨cached, [], ⟨websites.length, cached.length, 0, []⟩, none⟩, got.1.2)
    | none =>
      let pv := partitionUrls websites
      if pv.1 = [] then (.bad "No valid websites provided".data, got.1.2)
      else
        let limited := pv.1.take 50
        let outcome := runExtraction extract limited pv.2
        let uniqueBusinesses := DuplicateDetector.removeDuplicates outcome.1
        let cw := CacheManager.cacheCustomScrapeResults got.1.2 websites
          businessType location uniqueBusinesses now
        (.ok ⟨uniqueBusinesses,
          outcome.2.map (fun e => e.url ++ ':' :: ' ' :: e.msg),
          ⟨limited.length, uniqueBusinesses.length, outcome.2.length,
            catCounts outcome.2⟩,
          some outcome.2⟩, cw.1)

end ScrapeCustomRoute

/-! Concrete instances used to exercise the theorems below. -/

/-- A record whose signature components are all present but whose address
and email are empty. -/
def acmeRecord : BusinessResult :=
  ⟨"Acme".data, "5551234567".data, [], "https://acme.com".data, [], []⟩

/-- A record every field-level validator rejects (name too short, phone too
few digits, email malformed, website without a dot, address too short). -/
def allRejectedRecord : BusinessResult :=
  ⟨"A".data, "12".data, "x".data, "nodot".data, "abc".data, []⟩

/-- Attempt outcomes: a 403, then a 200. -/
def respForbiddenThenOk : ℕ → EnhancedRetry.AttemptOutcome := fun n =>
  if n = 0 then .status 403 [] else .status 200 []

/-- Attempt outcomes: a 404, then a 200. -/
def respNotFoundThenOk : ℕ → EnhancedRetry.AttemptOutcome := fun n =>
  if n = 0 then .status 404 [] else .status 200 []

/-- Attempt outcomes: a 500, then a 200. -/
def respServerErrThenOk : ℕ → EnhancedRetry.AttemptOutcome := fun n =>
  if n = 0 then .status 500 [] else .status 200 []

/-- A full cache: 1000 fresh entries with pairwise distinct keys. -/
def fullFreshCache : CacheState ℤ :=
  (List.range 1000).map
    (fun i => (List.replicate i 'a', ⟨0, 0, 10⟩))

/-- The custom-scrape batch of the resubmission scenario: one reachable URL
and one invalid one. -/
def batchUrls : List Str := ["example.com".data, "not a url".data]

/-- An extraction oracle that fails every URL with a 404-style error. -/
def extractAll404 : Str → ScrapeCustomRoute.ExtractOutcome := fun _ =>
  .failure "Page not found (404): Website may not exist".data

/-- The batch-cache key of `batchUrls` with empty filters. -/
def batchKey : Str :=
  CacheManager.generateKey "custom_scrape".data
    [(CacheManager.hashArray batchUrls).1, [], []]

/-- A cache already holding a (empty) result list for `batchUrls`. -/
def batchHitCache : CacheState (List BusinessResult) :=
  [(batchKey, ⟨[], 0, 1800000⟩)]

/-- The response body of the first (cache-miss) run of the resubmission
scenario: two failures, nothing extracted. -/
def firstRunResp : ScrapeCustomRoute.OkResp where
  businesses := []
  errors :=
    ["not a url: Invalid URL: Invalid URL".data,
     "example.com: Website not found (404 error)".data]
  stats := ⟨1, 0, 2, [(.validation, 1), (.network, 1)]⟩
  detailedErrors := some
    [⟨"not a url".data, "Invalid URL: Invalid URL".data, .validation⟩,
     ⟨"example.com".data, "Website not found (404 error)".data, .network⟩]

/-! Helper lemmas. -/

namespace DuplicateDetector

theorem levenshtein_le_aux :
    ∀ n (s t : Str), s.length + t.length ≤ n →
      levenshtein s t ≤ max s.length t.length := by
  intro n
  induction n with
  | zero =>
    intro s t h
    match s, t with
    | [], [] => simp [levenshtein]
    | [], _ :: _ => simp at h
    | _ :: _, _ => simp at h
  | succ n ih =>
    intro s t h
    match s, t with
    | [], t => simp [levenshtein]
    | a :: s', [] => simp [levenshtein]
    | a :: s', b :: t' =>
      rw [levenshtein]
      have h1 : s'.length + t'.length ≤ n := by
        simp only [List.length_cons] at h; omega
      have h2 : s'.length + (b :: t').length ≤ n := by
        simp only [List.length_cons] at h ⊢; omega
      have k1 := ih s' t' h1
      have k2 := ih s' (b :: t') h2
      split
      · simp only [List.length_cons]
        omega
      · simp only [List.length_cons] at k1 k2 ⊢
        omega

/-- Levenshtein distance is at most the longer length. -/
theorem levenshtein_le_max (s t : Str) :
    levenshtein s t ≤ max s.length t.length :=
  levenshtein_le_aux (s.length + t.length) s t le_rfl

/-- String similarity scores are nonnegative. -/
theorem stringSimilarity_nonneg (s t : Str) : 0 ≤ stringSimilarity s t := by
  unfold stringSimilarity
  split
  · exact le_refl 0
  · split
    · norm_num
    · by_cases hc : t.length < s.length
      · simp only [if_pos hc]
        split
        · norm_num
        · apply div_nonneg
          · rw [sub_nonneg]
            have hlev := levenshtein_le_max s t
            have hmax : max s.length t.length = s.length := by omega
            rw [hmax] at hlev
            exact_mod_cast hlev
          · positivity
      · simp only [if_neg hc]
        split
        · norm_num
        · apply div_nonneg
          · rw [sub_nonneg]
            have hlev := levenshtein_le_max t s
            have hmax : max t.length s.length = t.length := by omega
            rw [hmax] at hlev
            exact_mod_cast hlev
          · positivity

/-- Email similarity scores are nonnegative. -/
theorem emailSimilarity_nonneg (s t : Str) : 0 ≤ emailSimilarity s t := by
  unfold emailSimilarity
  split
  · exact le_refl 0
  · split
    · exact zero_le_one
    · split
      · split
        · norm_num
        · exact le_refl 0
      · exact le_refl 0

/-- Identical nonempty strings have similarity 1. -/
theorem stringSimilarity_self (s : Str) (h : s ≠ []) :
    stringSimilarity s s = 1 := by
  unfold stringSimilarity
  rw [if_neg (by simp [h]), if_pos rfl]

end DuplicateDetector

/-! Claim theorems. -/

open JsStr BusinessDataValidator DuplicateDetector

/-- C8: `validateWebsite` maps `example.com`, `www.example.com` and
`https://example.com/` to the same canonical `https://example.com/`. -/
theorem validateWebsite_canonical_example :
    validateWebsite "example.com".data = some "https://example.com/".data
    ∧ validateWebsite "www.example.com".data = some "https://example.com/".data
    ∧ validateWebsite "https://example.com/".data
        = some "https://example.com/".data := by
  exact ⟨by decide, by decide, by decide⟩

/-- C2 (counterexample): `validateBusinessResult` does not replace a
rejected name by the empty string — `validateBusinessName(...) ||
business.name` falls back to the original raw name. -/
theorem validateBusinessResult_keeps_rejected_name :
    validateBusinessName allRejectedRecord.name = none
    ∧ (validateBusinessResult allRejectedRecord).name = "A".data
    ∧ "A".data ≠ ([] : Str) := by
  exact ⟨by decide, by decide, by decide⟩

/-- C2 (amended): `validateBusinessResult` never throws (it is a total
function) and replaces each rejected phone, email, website and address by
the empty string; a rejected name, however, is kept as the original raw
name. -/
theorem validateBusinessResult_rejected_fields (b : BusinessResult) :
    (validatePhone b.phone = none → (validateBusinessResult b).phone = [])
    ∧ (validateEmail b.email = false → (validateBusinessResult b).email = [])
    ∧ (validateWebsite b.website = none → (validateBusinessResult b).website = [])
    ∧ (validateAddress b.address = none → (validateBusinessResult b).address = [])
    ∧ (validateBusinessName b.name = none → (validateBusinessResult b).name = b.name) := by
  refine ⟨fun h => ?_, fun h => ?_, fun h => ?_, fun h => ?_, fun h => ?_⟩
  · simp [validateBusinessResult, jsOrStr, h]
  · simp [validateBusinessResult, jsOrStr, h]
  · simp [validateBusinessResult, jsOrStr, h]
  · simp [validateBusinessResult, jsOrStr, h]
  · simp [validateBusinessResult, jsOrStr, h]

/-- Witness for the C2 theorem at a record every validator rejects. -/
theorem validateBusinessResult_rejected_fields_witness :
    (validateBusinessResult allRejectedRecord).phone = []
    ∧ (validateBusinessResult allRejectedRecord).email = []
    ∧ (validateBusinessResult allRejectedRecord).website = []
    ∧ (validateBusinessResult allRejectedRecord).address = []
    ∧ (validateBusinessResult allRejectedRecord).name = allRejectedRecord.name := by
  refine ⟨?_, ?_, ?_, ?_, ?_⟩
  · exact (validateBusinessResult_rejected_fields allRejectedRecord).1 (by decide)
  · exact (validateBusinessResult_rejected_fields allRejectedRecord).2.1 (by decide)
  · exact (validateBusinessResult_rejected_fields allRejectedRecord).2.2.1 (by decide)
  · exact (validateBusinessResult_rejected_fields allRejectedRecord).2.2.2.1 (by decide)
  · exact (validateBusinessResult_rejected_fields allRejectedRecord).2.2.2.2 (by decide)

/-- Digit extraction round-trips through the `(AAA) EEE-LLLL` format. -/
theorem digitsOf_fmt10 (d : Str) (hd : ∀ c ∈ d, c.isDigit) :
    digitsOf (fmt10 d) = d := by
  have h1 : (d.take 3).filter Char.isDigit = d.take 3 :=
    List.filter_eq_self.mpr (fun c hc => hd c (List.take_subset 3 d hc))
  have h2 : ((d.drop 3).take 3).filter Char.isDigit = (d.drop 3).take 3 :=
    List.filter_eq_self.mpr (fun c hc =>
      hd c (List.drop_subset 3 d (List.take_subset 3 _ hc)))
  have h3 : (d.drop 6).filter Char.isDigit = d.drop 6 :=
    List.filter_eq_self.mpr (fun c hc => hd c (List.drop_subset 6 d hc))
  have c1 : Char.isDigit '(' = false := by decide
  have c2 : Char.isDigit ')' = false := by decide
  have c3 : Char.isDigit ' ' = false := by decide
  have c4 : Char.isDigit '-' = false := by decide
  unfold digitsOf fmt10
  simp only [List.filter_cons, List.filter_append, c1, c2, c3, c4,
    Bool.false_eq_true, if_false, h1, h2, h3]
  have h6 : (d.drop 3).take 3 ++ d.drop 6 = d.drop 3 := by
    rw [show (6 : ℕ) = 3 + 3 from rfl, ← List.drop_drop]
    exact List.take_append_drop 3 (d.drop 3)
  rw [h6, List.take_append_drop]

/-- C7: `validatePhone` is idempotent on its canonical 10-digit output: a
raw phone with exactly 10 digits that validates to `s` (necessarily of the
form `(AAA) EEE-LLLL`) revalidates to `s` itself. -/
theorem validatePhone_idempotent_canonical10 (raw s : Str)
    (h : validatePhone raw = some s) (hlen : (digitsOf raw).length = 10) :
    validatePhone s = some s := by
  have hdig : ∀ c ∈ digitsOf raw, c.isDigit := fun c hc => List.of_mem_filter hc
  unfold validatePhone at h
  dsimp only at h
  split_ifs at h with h0 h1 h2 h3 h4
  -- the only surviving branch is the 10-digit one: s = fmt10 (digitsOf raw)
  injection h with hs
  subst hs
  have hne : fmt10 (digitsOf raw) ≠ [] := by unfold fmt10; simp
  unfold validatePhone
  rw [if_neg hne]
  dsimp only
  simp only [digitsOf_fmt10 (digitsOf raw) hdig]
  rw [if_neg h1, if_neg h2, if_neg h3, if_pos hlen, if_neg h4]

/-- Witness for the C7 theorem at the raw phone `2345678901`. -/
theorem validatePhone_idempotent_canonical10_witness :
    validatePhone "(234) 567-8901".data = some "(234) 567-8901".data :=
  validatePhone_idempotent_canonical10 "2345678901".data "(234) 567-8901".data
    (by decide) (by decide)

namespace CacheManager

/-- On the replace-in-place branch of `mapSet`, lookup finds the new entry. -/
theorem find_in_replace {α : Type} (k : Str) (e : CacheEntry α) :
    ∀ c : CacheState α, c.any (fun q => q.1 = k) = true →
      (c.map (fun p => if p.1 = k then (k, e) else p)).find?
        (fun p => p.1 = k) = some (k, e) := by
  intro c
  induction c with
  | nil => simp
  | cons p c ih =>
    intro h
    by_cases hp : p.1 = k
    · rw [List.map_cons, if_pos hp]
      exact List.find?_cons_of_pos _ (by simp)
    · rw [List.map_cons, if_neg hp]
      rw [List.find?_cons_of_neg _ (by simp [hp])]
      apply ih
      rcases List.any_eq_true.mp h with ⟨q, hq, hqk⟩
      rcases List.mem_cons.mp hq with rfl | hq2
      · exact absurd (of_decide_eq_true hqk) hp
      · exact List.any_eq_true.mpr ⟨q, hq2, hqk⟩

/-- On the append branch of `mapSet`, lookup falls through to the new entry. -/
theorem find_in_append_new {α : Type} (k : Str) (e : CacheEntry α) :
    ∀ c : CacheState α, c.any (fun q => q.1 = k) = false →
      (c ++ [(k, e)]).find? (fun p => p.1 = k) = some (k, e) := by
  intro c
  induction c with
  | nil => exact fun _ => List.find?_cons_of_pos _ (by simp)
  | cons p c ih =>
    intro h
    simp only [List.any_cons, Bool.or_eq_false_iff] at h
    rw [List.cons_append, List.find?_cons_of_neg _ (by simp [h.1])]
    exact ih h.2

/-- Looking up the key just written always finds the new entry. -/
theorem mapLookup_mapSet_self {α : Type} (c : CacheState α) (k : Str)
    (e : CacheEntry α) : mapLookup (mapSet c k e) k = some e := by
  unfold mapLookup mapSet
  by_cases hc : c.any (fun q => q.1 = k)
  · rw [if_pos hc, find_in_replace k e c hc]
    rfl
  · rw [if_neg hc, find_in_append_new k e c (Bool.eq_false_iff.mpr hc)]
    rfl

end CacheManager

/-- C4: a `get` after a `set` returns the stored value while the elapsed
time is at most `ttl`; once the elapsed time exceeds `ttl`, the same `get`
misses and deletes the entry. -/
theorem cache_get_after_set {α : Type} (c : CacheState α) (k : Str) (v : α)
    (ttl t0 t : ℤ) :
    (t - t0 ≤ ttl →
      CacheManager.get (CacheManager.set c k v ttl t0) k t
        = (some v, CacheManager.set c k v ttl t0))
    ∧ (ttl < t - t0 →
      CacheManager.get (CacheManager.set c k v ttl t0) k t
        = (none, CacheManager.mapDelete (CacheManager.set c k v ttl t0) k)) := by
  have hl : CacheManager.mapLookup (CacheManager.set c k v ttl t0) k
      = some ⟨v, t0, ttl⟩ := CacheManager.mapLookup_mapSet_self _ k _
  constructor
  · intro h
    simp only [CacheManager.get, hl]
    rw [if_neg (by simp only [CacheManager.isExpired, decide_eq_true_eq]; omega)]
  · intro h
    simp only [CacheManager.get, hl]
    rw [if_pos (by simp only [CacheManager.isExpired, decide_eq_true_eq]; omega)]

/-- Witness for the C4 theorem: a fresh read at the TTL boundary hits, a
read one tick later misses and deletes. -/
theorem cache_get_after_set_witness :
    CacheManager.get (CacheManager.set ([] : CacheState ℤ) "k".data 5 10 0)
        "k".data 10
      = (some 5, CacheManager.set ([] : CacheState ℤ) "k".data 5 10 0)
    ∧ CacheManager.get (CacheManager.set ([] : CacheState ℤ) "k".data 5 10 0)
        "k".data 11
      = (none, CacheManager.mapDelete
          (CacheManager.set ([] : CacheState ℤ) "k".data 5 10 0) "k".data) :=
  ⟨(cache_get_after_set [] "k".data 5 10 0 10).1 (by decide),
   (cache_get_after_set [] "k".data 5 10 0 11).2 (by decide)⟩

namespace DuplicateDetector

/-- Every list accepted by the dedup loop is pairwise non-duplicate: later
records have a fresh signature and similarity at most 0.85 against every
earlier one. -/
theorem removeDupGo_pairwise :
    ∀ (l u : List BusinessResult) (seen : List Str),
      u.Pairwise (fun e b =>
        createBusinessSignature b ≠ createBusinessSignature e ∧
          ¬ ((17/20 : ℚ) < calculateSimilarity b e)) →
      (∀ e ∈ u, createBusinessSignature e ∈ seen) →
      (removeDupGo l u seen).Pairwise (fun e b =>
        createBusinessSignature b ≠ createBusinessSignature e ∧
          ¬ ((17/20 : ℚ) < calculateSimilarity b e)) := by
  intro l
  induction l with
  | nil =>
    intro u seen hu _
    simpa [removeDupGo] using hu
  | cons b rest ih =>
    intro u seen hu hs
    rw [removeDupGo]
    by_cases h1 : createBusinessSignature b ∈ seen
    · rw [if_pos h1]
      exact ih u seen hu hs
    · rw [if_neg h1]
      by_cases h2 : u.any
          (fun e => decide ((17/20 : ℚ) < calculateSimilarity b e)) = true
      · rw [if_pos h2]
        exact ih u seen hu hs
      · rw [if_neg h2]
        apply ih
        · rw [List.pairwise_append]
          refine ⟨hu, List.pairwise_singleton _ _, ?_⟩
          intro e he b' hb'
          rw [List.mem_singleton] at hb'
          subst hb'
          refine ⟨fun hEq => h1 (hEq ▸ hs e he), fun hGt => ?_⟩
          exact h2 (List.any_eq_true.mpr ⟨e, he, decide_eq_true hGt⟩)
        · intro e he
          rcases List.mem_append.mp he with h | h
          · exact List.mem_append_left _ (hs e h)
          · rw [List.mem_singleton] at h
            subst h
            exact List.mem_append_right _ (List.mem_singleton_self _)

/-- A pairwise non-duplicate list passes the dedup loop unchanged. -/
theorem removeDupGo_fixed :
    ∀ (l u : List BusinessResult) (seen : List Str),
      l.Pairwise (fun e b =>
        createBusinessSignature b ≠ createBusinessSignature e ∧
          ¬ ((17/20 : ℚ) < calculateSimilarity b e)) →
      (∀ b ∈ l, createBusinessSignature b ∉ seen) →
      (∀ b ∈ l, ∀ e ∈ u, ¬ ((17/20 : ℚ) < calculateSimilarity b e)) →
      removeDupGo l u seen = u ++ l := by
  intro l
  induction l with
  | nil =>
    intro u seen _ _ _
    simp [removeDupGo]
  | cons b rest ih =>
    intro u seen hP hseen hsim
    have hPhead := (List.pairwise_cons.mp hP).1
    have hPrest := (List.pairwise_cons.mp hP).2
    rw [removeDupGo]
    rw [if_neg (hseen b (List.mem_cons_self b rest))]
    have hany : u.any
        (fun e => decide ((17/20 : ℚ) < calculateSimilarity b e)) = false := by
      rw [Bool.eq_false_iff]
      intro hcontra
      rcases List.any_eq_true.mp hcontra with ⟨e, he, hgt⟩
      exact hsim b (List.mem_cons_self b rest) e he (of_decide_eq_true hgt)
    rw [if_neg (by rw [hany]; exact Bool.false_ne_true)]
    rw [ih (u ++ [b]) (seen ++ [createBusinessSignature b]) hPrest ?_ ?_]
    · simp
    · intro c hc hmem
      rcases List.mem_append.mp hmem with h | h
      · exact hseen c (List.mem_cons_of_mem b hc) h
      · rw [List.mem_singleton] at h
        exact (hPhead c hc).1 h
    · intro c hc e he
      rcases List.mem_append.mp he with h | h
      · exact hsim c (List.mem_cons_of_mem b hc) e h
      · rw [List.mem_singleton] at h
        subst h
        exact (hPhead c hc).2

end DuplicateDetector

/-- C6: `removeDuplicates` is idempotent — applying it to its own output
returns that output unchanged, records and order alike. -/
theorem removeDuplicates_idempotent (l : List BusinessResult) :
    removeDuplicates (removeDuplicates l) = removeDuplicates l := by
  have hp := removeDupGo_pairwise l [] [] List.Pairwise.nil
    (by intro e he; cases he)
  unfold removeDuplicates
  rw [removeDupGo_fixed (removeDupGo l [] []) [] [] hp
    (by intro b hb h; cases h) (by intro b hb e he; cases he)]
  simp

/-- C1 (counterexample): a pair with identical normalized names, identical
digit-only phones and the same website domain can score only 0.75 — below
0.85 — when addresses and emails are empty (the three matching components
weigh 0.4 + 0.2 + 0.15). -/
theorem similarity_of_signature_equal_pair_cex :
    normalizeBusinessName acmeRecord.name = normalizeBusinessName acmeRecord.name
    ∧ digitsOf acmeRecord.phone = digitsOf acmeRecord.phone
    ∧ extractDomain acmeRecord.website = extractDomain acmeRecord.website
    ∧ (extractDomain acmeRecord.website).isSome
    ∧ calculateSimilarity acmeRecord acmeRecord < 17/20 := by
  refine ⟨rfl, rfl, rfl, by decide, ?_⟩
  have hn : normalizeBusinessName acmeRecord.name = "acme".data := by decide
  have hname : stringSimilarity (normalizeBusinessName acmeRecord.name)
      (normalizeBusinessName acmeRecord.name) = 1 := by
    rw [hn]
    exact stringSimilarity_self _ (by decide)
  have hphone : phoneSimilarity acmeRecord.phone acmeRecord.phone = 1 := by
    unfold phoneSimilarity
    rw [if_neg (by decide)]
    dsimp only
    rw [if_pos rfl]
  have hdom : extractDomain acmeRecord.website = some "acme.com".data := by
    decide
  have hweb : websiteSimilarity acmeRecord.website acmeRecord.website = 1 := by
    unfold websiteSimilarity
    rw [if_neg (by decide), hdom]
    simp
  have haddr : stringSimilarity (normalizeAddress acmeRecord.address)
      (normalizeAddress acmeRecord.address) = 0 := by
    have h0 : normalizeAddress acmeRecord.address = [] := by decide
    rw [h0]
    unfold stringSimilarity
    rw [if_pos (Or.inl rfl)]
  have hemail : emailSimilarity acmeRecord.email acmeRecord.email = 0 := by
    unfold emailSimilarity
    rw [if_pos (show acmeRecord.email = [] ∨ acmeRecord.email = []
      from Or.inl (by decide))]
  unfold calculateSimilarity
  dsimp only
  rw [hname, hphone, hweb, haddr, hemail]
  norm_num

/-- C1 (amended): for two records with identical nonempty normalized names,
nonempty raw phones with identical digit strings, and the same extracted
website domain, `calculateSimilarity` is at least 0.75 (0.85 is not
guaranteed), and `removeDuplicates` on the two-record list keeps only the
first: the second collapses onto it through the exact-signature check. -/
theorem similarity_of_signature_equal_pair (r1 r2 : BusinessResult)
    (hn : normalizeBusinessName r1.name = normalizeBusinessName r2.name)
    (hn0 : normalizeBusinessName r1.name ≠ [])
    (hp1 : r1.phone ≠ []) (hp2 : r2.phone ≠ [])
    (hd : digitsOf r1.phone = digitsOf r2.phone)
    (dom : Str)
    (hw1 : extractDomain r1.website = some dom)
    (hw2 : extractDomain r2.website = some dom) :
    (3/4 : ℚ) ≤ calculateSimilarity r1 r2
      ∧ removeDuplicates [r1, r2] = [r1] := by
  have hwne1 : r1.website ≠ [] := by
    intro h
    rw [h] at hw1
    unfold extractDomain at hw1
    simp at hw1
  have hwne2 : r2.website ≠ [] := by
    intro h
    rw [h] at hw2
    unfold extractDomain at hw2
    simp at hw2
  have hname : stringSimilarity (normalizeBusinessName r1.name)
      (normalizeBusinessName r2.name) = 1 := by
    rw [← hn]
    exact stringSimilarity_self _ hn0
  have hphone : phoneSimilarity r1.phone r2.phone = 1 := by
    unfold phoneSimilarity
    rw [if_neg (by simp [hp1, hp2])]
    dsimp only
    rw [if_pos hd]
  have hweb : websiteSimilarity r1.website r2.website = 1 := by
    unfold websiteSimilarity
    rw [if_neg (by simp [hwne1, hwne2]), hw1, hw2]
    simp
  have hsig : createBusinessSignature r2 = createBusinessSignature r1 := by
    unfold createBusinessSignature
    rw [hn, hd, hw1, hw2]
  constructor
  · have haddr := stringSimilarity_nonneg (normalizeAddress r1.address)
      (normalizeAddress r2.address)
    have hemail := emailSimilarity_nonneg r1.email r2.email
    unfold calculateSimilarity
    dsimp only
    rw [hname, hphone, hweb]
    linarith
  · unfold removeDuplicates
    rw [removeDupGo]
    rw [if_neg (List.not_mem_nil _)]
    rw [if_neg (by simp)]
    rw [removeDupGo]
    rw [if_pos (by rw [hsig]; exact List.mem_append_right _ (List.mem_singleton_self _))]
    rw [removeDupGo]
    simp

/-- Witness for the C1 theorem at a concrete signature-equal pair. -/
theorem similarity_of_signature_equal_pair_witness :
    (3/4 : ℚ) ≤ calculateSimilarity acmeRecord acmeRecord
      ∧ removeDuplicates [acmeRecord, acmeRecord] = [acmeRecord] :=
  similarity_of_signature_equal_pair acmeRecord acmeRecord rfl (by decide)
    (by decide) (by decide) rfl "acme.com".data (by decide) (by decide)

namespace CacheManager

/-- Deleting a list of keys one by one filters all of them out. -/
theorem foldl_mapDelete {α : Type} :
    ∀ (ks : List Str) (c : CacheState α),
      ks.foldl (fun m k => mapDelete m k) c
        = c.filter (fun p => decide (p.1 ∉ ks)) := by
  intro ks
  induction ks with
  | nil =>
    intro c
    simp
  | cons k ks ih =>
    intro c
    rw [List.foldl_cons, ih (mapDelete c k)]
    unfold mapDelete
    rw [List.filter_filter]
    apply List.filter_congr
    intro a _
    by_cases h1 : a.1 = k <;> by_cases h2 : a.1 ∈ ks <;>
      simp [List.mem_cons, h1, h2]

/-- With pairwise distinct keys, the cleanup pass removes exactly the
expired entries. -/
theorem cleanup_eq_filter {α : Type} (c : CacheState α) (now : ℤ)
    (hnd : (c.map Prod.fst).Nodup) :
    cleanup c now = c.filter (fun p => !isExpired now p.2) := by
  unfold cleanup
  rw [foldl_mapDelete]
  apply List.filter_congr
  intro p hp
  by_cases he : isExpired now p.2
  · have hin : p.1 ∈ (c.filter (fun q => isExpired now q.2)).map Prod.fst :=
      List.mem_map_of_mem _ (List.mem_filter.mpr ⟨hp, he⟩)
    simp [hin, he]
  · have hnotin : p.1 ∉ (c.filter (fun q => isExpired now q.2)).map Prod.fst := by
      intro hmem
      rcases List.mem_map.mp hmem with ⟨q, hq, hqk⟩
      have hq2 := List.mem_filter.mp hq
      have hqp : q = p := List.inj_on_of_nodup_map hnd hq2.1 hp hqk
      rw [hqp] at hq2
      exact he hq2.2
    simp [hnotin, he]

/-- A `mapSet` never shrinks the map. -/
theorem length_le_mapSet {α : Type} (c : CacheState α) (k : Str)
    (e : CacheEntry α) : c.length ≤ (mapSet c k e).length := by
  unfold mapSet
  split
  · rw [List.length_map]
  · simp

end CacheManager

/-- C5 (amended): when a `set` finds the map at (or beyond) the size cap,
the cleanup pass removes exactly the expired entries (age strictly greater
than ttl) and no unexpired entry is evicted; if all entries are fresh, the
size after the write is still at least the cap (it exceeds the cap only
when the written key is new — writing an existing key keeps the size at the
cap). -/
theorem cache_set_cleanup_exact {α : Type} (c : CacheState α) (k : Str)
    (v : α) (ttl now : ℤ) (hnd : (c.map Prod.fst).Nodup)
    (hsz : CacheManager.MAX_CACHE_SIZE ≤ c.length) :
    CacheManager.set c k v ttl now
        = CacheManager.mapSet
            (c.filter (fun p => !CacheManager.isExpired now p.2)) k ⟨v, now, ttl⟩
    ∧ ((∀ p ∈ c, ¬ CacheManager.isExpired now p.2) →
        CacheManager.MAX_CACHE_SIZE ≤ (CacheManager.set c k v ttl now).length) := by
  have h1 : CacheManager.set c k v ttl now
      = CacheManager.mapSet
          (c.filter (fun p => !CacheManager.isExpired now p.2)) k ⟨v, now, ttl⟩ := by
    unfold CacheManager.set
    rw [if_pos hsz, CacheManager.cleanup_eq_filter c now hnd]
  refine ⟨h1, fun hfresh => ?_⟩
  rw [h1]
  have hfe : c.filter (fun p => !CacheManager.isExpired now p.2) = c :=
    List.filter_eq_self.mpr (fun p hp => by simp [hfresh p hp])
  rw [hfe]
  exact le_trans hsz (CacheManager.length_le_mapSet c k _)

/-- The full fresh cache instance has pairwise distinct keys. -/
theorem fullFreshCache_keys_nodup : (fullFreshCache.map Prod.fst).Nodup := by
  have hmap : fullFreshCache.map Prod.fst
      = (List.range 1000).map (fun i => List.replicate i 'a') := by
    simp [fullFreshCache, List.map_map, Function.comp]
  rw [hmap]
  apply List.Nodup.map
  · intro a b hab
    have := congrArg List.length hab
    simpa using this
  · exact List.nodup_range 1000

/-- Every entry of the full fresh cache instance is unexpired at time 0. -/
theorem fullFreshCache_all_fresh :
    ∀ p ∈ fullFreshCache, ¬ CacheManager.isExpired 0 p.2 := by
  intro p hp
  rcases List.mem_map.mp hp with ⟨i, _, rfl⟩
  simp [CacheManager.isExpired]

/-- The full fresh cache instance is exactly at the size cap. -/
theorem fullFreshCache_length :
    fullFreshCache.length = CacheManager.MAX_CACHE_SIZE := by
  simp [fullFreshCache, CacheManager.MAX_CACHE_SIZE]

/-- C5 (counterexample): a `set` on an existing key of a map of 1000 fresh
entries leaves the size exactly at the cap — the size does not exceed the
cap on that write, although all entries were fresh. -/
theorem cache_set_at_cap_existing_key :
    (∀ p ∈ fullFreshCache, ¬ CacheManager.isExpired 0 p.2)
    ∧ CacheManager.MAX_CACHE_SIZE ≤ fullFreshCache.length
    ∧ (CacheManager.set fullFreshCache [] 37 10 0).length
        = CacheManager.MAX_CACHE_SIZE := by
  refine ⟨fullFreshCache_all_fresh, le_of_eq fullFreshCache_length.symm, ?_⟩
  unfold CacheManager.set
  rw [if_pos (le_of_eq fullFreshCache_length.symm),
    CacheManager.cleanup_eq_filter _ _ fullFreshCache_keys_nodup,
    List.filter_eq_self.mpr (fun p hp => by simp [fullFreshCache_all_fresh p hp])]
  have hany : fullFreshCache.any (fun p => p.1 = ([] : Str)) = true := by
    apply List.any_eq_true.mpr
    refine ⟨(List.replicate 0 'a', ⟨0, 0, 10⟩), ?_, by simp⟩
    exact List.mem_map_of_mem _ (List.mem_range.mpr (by norm_num))
  unfold CacheManager.mapSet
  rw [if_pos hany, List.length_map]
  exact fullFreshCache_length

/-- Witness for the C5 theorem on the full fresh cache. -/
theorem cache_set_cleanup_exact_witness :
    CacheManager.set fullFreshCache "x".data 37 10 0
        = CacheManager.mapSet
            (fullFreshCache.filter (fun p => !CacheManager.isExpired 0 p.2))
            "x".data ⟨37, 0, 10⟩
    ∧ CacheManager.MAX_CACHE_SIZE
        ≤ (CacheManager.set fullFreshCache "x".data 37 10 0).length := by
  have h := cache_set_cleanup_exact fullFreshCache "x".data 37 10 0
    fullFreshCache_keys_nodup (le_of_eq fullFreshCache_length.symm)
  exact ⟨h.1, h.2 fullFreshCache_all_fresh⟩

namespace EnhancedRetry

/-- The 403 message is fixed. -/
theorem errMsgFor_403 (st : Str) :
    errMsgFor 403 st
      = "Access denied (403): Website may be blocking automated requests".data := by
  unfold errMsgFor
  rw [if_pos (Or.inl rfl)]
  decide

/-- The 429 message is fixed. -/
theorem errMsgFor_429 (st : Str) :
    errMsgFor 429 st
      = "Access denied (429): Website may be blocking automated requests".data := by
  unfold errMsgFor
  rw [if_pos (Or.inr rfl)]
  decide

/-- The 404 message is fixed. -/
theorem errMsgFor_404 (st : Str) :
    errMsgFor 404 st = "Page not found (404): Website may not exist".data := by
  unfold errMsgFor
  rw [if_neg (by decide), if_pos rfl]

/-- For a 5xx status the thrown message is the server-error one. -/
theorem errMsgFor_server {code : ℕ} (st : Str) (h : 500 ≤ code) :
    errMsgFor code st
      = "Server error (".data ++ (Nat.repr code).data
        ++ "): Website may be temporarily unavailable".data := by
  unfold errMsgFor
  rw [if_neg (by omega), if_neg (by omega), if_pos h]

set_option maxRecDepth 100000 in
/-- No 5xx server-error message contains `404` or `Access denied`, so such
an attempt is always retried. -/
theorem server_msg_not_special :
    ∀ code : ℕ, code < 600 → 500 ≤ code →
      containsStr ("Server error (".data ++ (Nat.repr code).data
          ++ "): Website may be temporarily unavailable".data) "404".data = false
        ∧ containsStr ("Server error (".data ++ (Nat.repr code).data
            ++ "): Website may be temporarily unavailable".data)
          "Access denied".data = false := by
  decide

end EnhancedRetry

/-- C3 (counterexample): a 403 on the first attempt is thrown to the caller
after a single attempt even though two attempts remain and the next attempt
would have returned 200 — access-denied statuses are not retried. -/
theorem fetch_403_not_retried :
    EnhancedRetry.fetchWithEnhancedRetry respForbiddenThenOk 3 30000
        = (.failure (EnhancedRetry.errMsgFor 403 []), 1)
    ∧ respForbiddenThenOk 1 = .status 200 []
    ∧ (1 : ℕ) < 3 :=
  ⟨by decide, by decide, by decide⟩

/-- C3 (amended): in `fetchWithEnhancedRetry`, a 403 or 429 response fails
with the access-denied message immediately after a single attempt (not
retried, like 404); a 404 fails immediately after a single attempt; a 5xx
response is transient — it is retried, and a following 2xx response is
returned. -/
theorem fetch_status_retry_policy :
    (∀ (resp : ℕ → EnhancedRetry.AttemptOutcome)
        (maxRetries timeoutMs code : ℕ) (st : Str),
        1 ≤ maxRetries → (code = 403 ∨ code = 429) →
        resp 0 = .status code st →
        EnhancedRetry.fetchWithEnhancedRetry resp maxRetries timeoutMs
          = (.failure (EnhancedRetry.errMsgFor code st), 1))
    ∧ (∀ (resp : ℕ → EnhancedRetry.AttemptOutcome)
        (maxRetries timeoutMs : ℕ) (st : Str),
        1 ≤ maxRetries → resp 0 = .status 404 st →
        EnhancedRetry.fetchWithEnhancedRetry resp maxRetries timeoutMs
          = (.failure (EnhancedRetry.errMsgFor 404 st), 1))
    ∧ (∀ (resp : ℕ → EnhancedRetry.AttemptOutcome)
        (maxRetries timeoutMs code : ℕ) (st : Str) (code2 : ℕ) (st2 : Str),
        2 ≤ maxRetries → resp 0 = .status code st → 500 ≤ code → code < 600 →
        resp 1 = .status code2 st2 → 200 ≤ code2 → code2 ≤ 299 →
        EnhancedRetry.fetchWithEnhancedRetry resp maxRetries timeoutMs
          = (.success code2, 2)) := by
  refine ⟨?_, ?_, ?_⟩
  · intro resp maxRetries timeoutMs code st hm hcode h0
    obtain ⟨m, rfl⟩ : ∃ m, maxRetries = m + 1 := ⟨maxRetries - 1, by omega⟩
    unfold EnhancedRetry.fetchWithEnhancedRetry
    rw [EnhancedRetry.fetchAux, h0]
    dsimp only
    rcases hcode with rfl | rfl
    · rw [if_neg (by omega), EnhancedRetry.errMsgFor_403 st]
      rw [if_pos (by decide)]
    · rw [if_neg (by omega), EnhancedRetry.errMsgFor_429 st]
      rw [if_pos (by decide)]
  · intro resp maxRetries timeoutMs st hm h0
    obtain ⟨m, rfl⟩ : ∃ m, maxRetries = m + 1 := ⟨maxRetries - 1, by omega⟩
    unfold EnhancedRetry.fetchWithEnhancedRetry
    rw [EnhancedRetry.fetchAux, h0]
    dsimp only
    rw [if_neg (by omega), EnhancedRetry.errMsgFor_404 st]
    rw [if_pos (by decide)]
  · intro resp maxRetries timeoutMs code st code2 st2 hm h0 h500 h600 h1 h200 h299
    obtain ⟨m, rfl⟩ : ∃ m, maxRetries = m + 2 := ⟨maxRetries - 2, by omega⟩
    unfold EnhancedRetry.fetchWithEnhancedRetry
    rw [show m + 2 = (m + 1) + 1 from rfl, EnhancedRetry.fetchAux, h0]
    dsimp only
    rw [if_neg (by omega)]
    rw [EnhancedRetry.errMsgFor_server st h500,
      (EnhancedRetry.server_msg_not_special code h600 h500).1,
      (EnhancedRetry.server_msg_not_special code h600 h500).2]
    rw [if_neg (by simp)]
    rw [EnhancedRetry.fetchAux]
    simp only [Nat.zero_add]
    rw [h1]
    dsimp only
    rw [if_pos ⟨h200, h299⟩]

/-- Witness for the C3 theorem at the three concrete attempt sequences. -/
theorem fetch_status_retry_policy_witness :
    EnhancedRetry.fetchWithEnhancedRetry respForbiddenThenOk 3 30000
        = (.failure (EnhancedRetry.errMsgFor 403 []), 1)
    ∧ EnhancedRetry.fetchWithEnhancedRetry respNotFoundThenOk 3 30000
        = (.failure (EnhancedRetry.errMsgFor 404 []), 1)
    ∧ EnhancedRetry.fetchWithEnhancedRetry respServerErrThenOk 3 30000
        = (.success 200, 2) :=
  ⟨fetch_status_retry_policy.1 respForbiddenThenOk 3 30000 403 []
      (by norm_num) (Or.inl rfl) rfl,
   fetch_status_retry_policy.2.1 respNotFoundThenOk 3 30000 []
      (by norm_num) rfl,
   fetch_status_retry_policy.2.2 respServerErrThenOk 3 30000 500 [] 200 []
      (by norm_num) rfl (by norm_num) (by norm_num) rfl (by norm_num)
      (by norm_num)⟩

/-- C9: `hashArray` sorts the caller's array in place — after
`cacheCustomScrapeResults` or `getCachedCustomScrapeResults` the caller's
`websites` array holds the sorted permutation of its previous contents —
while the generated hash is the same for every permutation of the list. -/
theorem hashArray_sorts_and_key_perm_invariant (arr : List Str) :
    ((CacheManager.hashArray arr).2.Sorted (· ≤ ·)
      ∧ (CacheManager.hashArray arr).2.Perm arr)
    ∧ (∀ (c : CacheState (List BusinessResult)) (bt loc : Str)
        (res : List BusinessResult) (now : ℤ),
        (CacheManager.cacheCustomScrapeResults c arr bt loc res now).2
          = (CacheManager.hashArray arr).2)
    ∧ (∀ (c : CacheState (List BusinessResult)) (bt loc : Str) (now : ℤ),
        (CacheManager.getCachedCustomScrapeResults c arr bt loc now).2
          = (CacheManager.hashArray arr).2)
    ∧ (∀ arr2 : List Str, arr2.Perm arr →
        (CacheManager.hashArray arr2).1 = (CacheManager.hashArray arr).1) := by
  refine ⟨⟨List.sorted_insertionSort _ arr, List.perm_insertionSort _ arr⟩,
    fun c bt loc res now => rfl, fun c bt loc now => rfl, fun arr2 hperm => ?_⟩
  haveI : IsAntisymm Str (· ≤ ·) := ⟨fun a b h1 h2 => le_antisymm h1 h2⟩
  have hsorteq : List.insertionSort (· ≤ ·) arr2
      = List.insertionSort (· ≤ ·) arr :=
    List.eq_of_perm_of_sorted
      ((List.perm_insertionSort _ arr2).trans
        (hperm.trans (List.perm_insertionSort _ arr).symm))
      (List.sorted_insertionSort _ arr2)
      (List.sorted_insertionSort _ arr)
  unfold CacheManager.hashArray
  rw [hsorteq]

/-- Witness for the C9 theorem on a two-element array and its swap. -/
theorem hashArray_sorts_and_key_perm_invariant_witness :
    ((CacheManager.hashArray ["b".data, "a".data]).2.Sorted (· ≤ ·)
      ∧ (CacheManager.hashArray ["b".data, "a".data]).2.Perm
          ["b".data, "a".data])
    ∧ ((CacheManager.cacheCustomScrapeResults [] ["b".data, "a".data]
          [] [] [] 0).2 = (CacheManager.hashArray ["b".data, "a".data]).2)
    ∧ ((CacheManager.getCachedCustomScrapeResults [] ["b".data, "a".data]
          [] [] 0).2 = (CacheManager.hashArray ["b".data, "a".data]).2)
    ∧ ((CacheManager.hashArray ["a".data, "b".data]).1
        = (CacheManager.hashArray ["b".data, "a".data]).1) := by
  have h := hashArray_sorts_and_key_perm_invariant ["b".data, "a".data]
  exact ⟨h.1, h.2.1 [] [] [] [] 0, h.2.2.1 [] [] [] 0,
    h.2.2.2 ["a".data, "b".data] (by decide)⟩

/-- Reading the batch cache right after writing it, within the 30-minute
TTL, returns the written result list and leaves the cache unchanged. -/
theorem getCachedCustomScrape_after_cache
    (gc2 : CacheState (List BusinessResult)) (websites : List Str)
    (bt loc : Str) (res : List BusinessResult) (now now2 : ℤ)
    (hts : now2 - now ≤ 1800000) :
    (CacheManager.getCachedCustomScrapeResults
      (CacheManager.cacheCustomScrapeResults gc2 websites bt loc res now).1
      websites bt loc now2).1
    = (some res,
        (CacheManager.cacheCustomScrapeResults gc2 websites bt loc res now).1) := by
  unfold CacheManager.getCachedCustomScrapeResults
    CacheManager.cacheCustomScrapeResults CacheManager.get CacheManager.set
  dsimp only
  rw [CacheManager.mapLookup_mapSet_self]
  dsimp only
  rw [if_neg (by
    simp only [CacheManager.isExpired, decide_eq_true_eq]
    omega)]

/-- C10: whenever a custom-scrape request hits the batch cache, the
response reports an empty errors list and stats with `failed = 0`,
`successful` = the cached business count, and `total` = the full input URL
count — regardless of the errors of the run that populated the cache: a
batch resubmitted within the 30-minute TTL reports zero failures even for
URLs that failed in the first run. -/
theorem custom_scrape_cache_hit_zero_failures :
    (∀ (cache : CacheState (List BusinessResult)) (websites : List Str)
        (bt loc : Str) (extract : Str → ScrapeCustomRoute.ExtractOutcome)
        (now : ℤ) (cached : List BusinessResult)
        (cst : CacheState (List BusinessResult)),
        websites ≠ [] →
        (CacheManager.getCachedCustomScrapeResults cache websites bt loc now).1
          = (some cached, cst) →
        ScrapeCustomRoute.POST cache websites bt loc extract now
          = (.ok ⟨cached, [], ⟨websites.length, cached.length, 0, []⟩, none⟩,
              cst))
    ∧ (∀ (cache : CacheState (List BusinessResult)) (websites : List Str)
        (bt loc : Str)
        (extract extract2 : Str → ScrapeCustomRoute.ExtractOutcome)
        (now now2 : ℤ) (r : ScrapeCustomRoute.OkResp)
        (c1 : CacheState (List BusinessResult)),
        websites ≠ [] →
        (CacheManager.getCachedCustomScrapeResults cache websites bt loc
          now).1.1 = none →
        ScrapeCustomRoute.POST cache websites bt loc extract now
          = (.ok r, c1) →
        now2 - now ≤ 1800000 →
        ScrapeCustomRoute.POST c1 websites bt loc extract2 now2
          = (.ok ⟨r.businesses, [],
              ⟨websites.length, r.businesses.length, 0, []⟩, none⟩, c1)) := by
  constructor
  · intro cache websites bt loc extract now cached cst hne hhit
    have h1 : (CacheManager.getCachedCustomScrapeResults cache websites bt loc
        now).1.1 = some cached := by rw [hhit]
    have h2 : (CacheManager.getCachedCustomScrapeResults cache websites bt loc
        now).1.2 = cst := by rw [hhit]
    unfold ScrapeCustomRoute.POST
    rw [if_neg hne]
    dsimp only
    rw [h1]
    dsimp only
    rw [h2]
  · intro cache websites bt loc extract extract2 now now2 r c1 hne hmiss
      hfirst hts
    unfold ScrapeCustomRoute.POST at hfirst
    rw [if_neg hne] at hfirst
    dsimp only at hfirst
    rw [hmiss] at hfirst
    dsimp only at hfirst
    by_cases hpv : (ScrapeCustomRoute.partitionUrls websites).1 = []
    · rw [if_pos hpv] at hfirst
      exact absurd (congrArg Prod.fst hfirst) (by simp)
    · rw [if_neg hpv] at hfirst
      rw [Prod.mk.injEq] at hfirst
      obtain ⟨hA, hB⟩ := hfirst
      injection hA with hA2
      subst hA2
      subst hB
      dsimp only
      unfold ScrapeCustomRoute.POST
      rw [if_neg hne]
      dsimp only
      have hg := getCachedCustomScrape_after_cache
        (CacheManager.getCachedCustomScrapeResults cache websites bt loc
          now).1.2
        websites bt loc
        (DuplicateDetector.removeDuplicates
          (ScrapeCustomRoute.runExtraction extract
            ((ScrapeCustomRoute.partitionUrls websites).1.take 50)
            (ScrapeCustomRoute.partitionUrls websites).2).1)
        now now2 hts
      have hg1 := congrArg Prod.fst hg
      have hg2 := congrArg Prod.snd hg
      dsimp only at hg1 hg2
      rw [hg1]
      dsimp only
      rw [hg2]

/-- Witness for the C10 theorem: a batch whose first run failed both URLs
(one validation error, one 404) is resubmitted and reports zero failures. -/
theorem custom_scrape_cache_hit_zero_failures_witness :
    ScrapeCustomRoute.POST batchHitCache batchUrls [] [] extractAll404 0
        = (.ok ⟨[], [], ⟨batchUrls.length, 0, 0, []⟩, none⟩, batchHitCache)
    ∧ ScrapeCustomRoute.POST batchHitCache batchUrls [] [] extractAll404 100
        = (.ok ⟨firstRunResp.businesses, [],
            ⟨batchUrls.length, firstRunResp.businesses.length, 0, []⟩, none⟩,
            batchHitCache) :=
  ⟨custom_scrape_cache_hit_zero_failures.1 batchHitCache batchUrls [] []
      extractAll404 0 [] batchHitCache (by decide) (by decide),
   custom_scrape_cache_hit_zero_failures.2 [] batchUrls [] [] extractAll404
      extractAll404 0 100 firstRunResp batchHitCache (by decide) (by decide)
      (by decide) (by decide)⟩
